import Mathlib

/-!
Shallow embedding of `src/web/src/app/api/mcp/local-files/route.ts` from the
repository `RAG_With_Onyx_MCP`, together with theorems settling the frozen
claims about its specification.  JS strings are modelled as Lean `String`
(one `Char` per UTF-16 unit); JS numbers appearing here are all non-negative
integers and are modelled as `Nat`.
-/

namespace RagWithOnyxMCP

/-- JS `s.slice(start, stop)` for `0 ≤ start ≤ stop` (the only way the source
calls it): the characters of `s` from index `start` (inclusive) to `stop`
(exclusive), clamped to the length of `s`. -/
def jsSlice (s : String) (start stop : Nat) : String :=
  String.mk ((s.data.drop start).take (stop - start))

/-- JS `s.split(sep)` for the single-character separator used by the source
(`fileName.split('.')`): splits the character list at every occurrence of `c`.
The result is always non-empty, exactly as a JS `split` result is. -/
def splitOnChar (c : Char) : List Char → List (List Char)
  | [] => [[]]
  | x :: xs =>
    match splitOnChar c xs with
    | [] => [[]]
    | h :: t => if x = c then [] :: h :: t else (x :: h) :: t

/-- JS `s.toLowerCase()` restricted to ASCII case mapping, which is all the
seven ASCII lookup keys of `getMimeType` can be affected by. -/
def jsToLower (s : String) : String := String.mk (s.data.map Char.toLower)

/-- JS `fileName.split('.').pop()` — the final dot-separated segment of the
name (the whole name when it contains no dot).  `pop` on the always-non-empty
`split` result never yields `undefined`, so the `getLastD` default is dead. -/
def jsLastSeg (s : String) : String :=
  String.mk ((splitOnChar '.' s.data).getLastD [])

/-- One chunk object produced by `chunkContent` (route.ts lines 251-261):
`{ id: "chunk_" + i, content: content.slice(i, i + chunkSize), index: i / chunkSize }`. -/
structure JsChunk where
  id : String
  content : String
  index : Nat
  deriving DecidableEq

/-- The body of the `for` loop of `chunkContent` (route.ts lines 253-259):
starting at character index `i`, while `i < content.length`, emit
`{ id: "chunk_" + i, content: content.slice(i, i + chunkSize), index: floor(i / chunkSize) }`
and advance `i` by `chunkSize`.  The JS loop is rendered with explicit fuel;
`content.length` steps always suffice when `chunkSize > 0` (for
`chunkSize = 0` and non-empty content the JS loop never terminates, a case no
theorem below relies on). -/
def chunkLoop (content : String) (chunkSize : Nat) : Nat → Nat → List JsChunk
  | _, 0 => []
  | i, fuel + 1 =>
    if i < content.length then
      ⟨"chunk_" ++ toString i, jsSlice content i (i + chunkSize), i / chunkSize⟩
        :: chunkLoop content chunkSize (i + chunkSize) fuel
    else []

/-- `chunkContent(content, chunkSize)` from route.ts lines 251-261. -/
def chunkContent (content : String) (chunkSize : Nat) : List JsChunk :=
  chunkLoop content chunkSize 0 content.length

/-- The default value `1000` of the `chunkSize` parameter of `chunkContent`,
used by `processDocumentContent`, which calls `chunkContent(textContent)`. -/
def chunkSizeDefault : Nat := 1000

/-- Concatenation of the `content` fields of a chunk list, in list (= index)
order. -/
def concatChunks (l : List JsChunk) : String :=
  l.foldr (fun c acc => c.content ++ acc) ""

/-- The `mimeTypes` lookup table of `getMimeType` (route.ts lines 266-274). -/
def mimeTypes : List (String × String) :=
  [("pdf", "application/pdf"),
   ("docx", "application/vnd.openxmlformats-officedocument.wordprocessingml.document"),
   ("txt", "text/plain"),
   ("md", "text/markdown"),
   ("html", "text/html"),
   ("jpg", "image/jpeg"),
   ("png", "image/png")]

/-- The string-keyed properties every plain JS object literal inherits from
`Object.prototype` (the eleven standard function-valued members plus the
`__proto__` accessor, which yields the prototype object).  Property access on
the `mimeTypes` literal falls through to these when the key is not an own
property, and all of them are truthy values. -/
def objectProtoMembers : List String :=
  ["constructor", "hasOwnProperty", "isPrototypeOf", "propertyIsEnumerable",
   "toLocaleString", "toString", "valueOf",
   "__defineGetter__", "__defineSetter__", "__lookupGetter__", "__lookupSetter__",
   "__proto__"]

/-- The JS value `mimeTypes[ext || ''] || 'application/octet-stream'` evaluates
to: either a string, or a truthy member inherited from `Object.prototype`
(a function such as `constructor`, or the prototype object for `__proto__`). -/
inductive JsValue where
  | str (s : String)
  | protoMember (name : String)
  deriving DecidableEq

/-- JS bracket lookup `table[key]` on the `mimeTypes` object literal: an own
data property wins; otherwise the key is resolved on the prototype chain
(`Object.prototype`); otherwise the access yields `undefined`. -/
inductive JsLookup where
  | ownString (s : String)
  | inherited (name : String)
  | undefined
  deriving DecidableEq

/-- Prototype-chain-aware rendering of `table[key]` for a plain object
literal whose own properties are the `table` entries. -/
def jsIndex (table : List (String × String)) (key : String) : JsLookup :=
  match table.lookup key with
  | some v => .ownString v
  | none => if key ∈ objectProtoMembers then .inherited key else .undefined

/-- `getMimeType(fileName)` from route.ts lines 264-276:
`const ext = fileName.split('.').pop()?.toLowerCase();
 return mimeTypes[ext || ''] || 'application/octet-stream';`.
An own property of the `mimeTypes` literal is one of the seven non-empty
(hence truthy) MIME strings and is returned as is; a key inherited from
`Object.prototype` resolves to that truthy member, so the `||` default does
not fire and the handler returns a non-string value; only an `undefined`
lookup (a falsy value) falls back to `'application/octet-stream'`. -/
def getMimeType (fileName : String) : JsValue :=
  match jsIndex mimeTypes (jsToLower (jsLastSeg fileName)) with
  | .ownString v => .str v
  | .inherited name => .protoMember name
  | .undefined => .str "application/octet-stream"

/-- The two-way `type` tag of a `LocalFile` (`'file' | 'folder'`). -/
inductive FileKind where
  | file
  | folder
  deriving DecidableEq

/-- The `LocalFile` interface of route.ts lines 3-9. -/
structure LocalFile where
  name : String
  path : String
  type : FileKind
  size : Option Nat
  lastModified : Option String
  deriving DecidableEq

/-- The outcome of the JS `fetch` + `response.json()` sequence inside
`callMCPServer`, as seen by the code: either the awaited calls threw
(network error, bad JSON, ...), or a response arrived with an HTTP status,
an optional JSON-RPC `error.message`, and `result.content` / `result.metadata`
(`content` is typed loosely in JS; it is a file list for `list_directory`
and a string for `read_file`, hence the type parameter). -/
inductive FetchOutcome (α : Type) where
  | thrown (msg : String)
  | response (status : Nat) (jsonErrMsg : Option String) (content : α) (metadata : String)

/-- The value `callMCPServer` returns: `{success: true, content, metadata}` or
`{success: false, error}`. -/
inductive MCPRet (α : Type) where
  | ok (content : α) (metadata : String)
  | fail (error : String)

/-- `callMCPServer(tool, params)` from route.ts lines 120-165, as a function of
the fetch outcome.  The code checks `response.ok` (status 200-299) first,
then `data.error`; every throw is caught and wrapped into
`"MCP server call failed: " + message`. -/
def callMCPServer {α : Type} : FetchOutcome α → MCPRet α
  | .thrown m => .fail ("MCP server call failed: " ++ m)
  | .response st jsonErrMsg content md =>
    if 200 ≤ st ∧ st ≤ 299 then
      match jsonErrMsg with
      | some em => .fail ("MCP server call failed: " ++ ("MCP server error: " ++ em))
      | none => .ok content md
    else
      .fail ("MCP server call failed: " ++ ("MCP server responded with status: " ++ toString st))

/-- The hard-coded mock file list of the `GET` handler (route.ts lines 35-54);
`now` stands for `new Date().toISOString()` at handling time. -/
def mockLocalFiles (now : String) : List LocalFile :=
  [⟨"Documents", "/Documents", .folder, none, some now⟩,
   ⟨"Downloads", "/Downloads", .folder, none, some now⟩,
   ⟨"Desktop", "/Desktop", .folder, none, some now⟩]

/-- The JSON body the `GET` handler responds with. -/
structure GetRet where
  success : Bool
  files : List LocalFile
  warning : Option String
  deriving DecidableEq

/-- The `GET` handler (route.ts lines 12-62) as a function of the
`list_directory` call's fetch outcome: on a successful MCP call it returns the
listed files; on any failure it catches and returns `success: true` with the
mock list and a warning. -/
def getHandler (fo : FetchOutcome (List LocalFile)) (now : String) : GetRet :=
  match callMCPServer fo with
  | .ok files _ => ⟨true, files, none⟩
  | .fail _ => ⟨true, mockLocalFiles now, some "Using fallback data - MCP server not available"⟩

/-- The metadata object built by `processDocumentContent` (route.ts lines
181-191).  The spread `...metadata` of the MCP-provided metadata is kept as
the opaque `base` field. -/
structure ProcessedMetadata where
  base : String
  fileName : String
  filePath : String
  fileType : String
  processedAt : String
  chunkCount : Nat
  originalSize : Nat
  source : String
  mcpProcessed : Bool
  deriving DecidableEq

/-- The document record `processDocumentContent` returns (route.ts lines
193-198). -/
structure DocumentData where
  fileName : String
  content : String
  chunks : List JsChunk
  metadata : ProcessedMetadata
  deriving DecidableEq

/-- `processDocumentContent` from route.ts lines 168-199, as a function of the
already-decoded text (`textContent`; Node's lenient base64 decoder never
throws, so the `catch` on line 175 is dead and the decode step is external to
this model).  `now` stands for `new Date().toISOString()`. -/
def processDocumentContent (fileName filePath fileType textContent mdBase now : String) :
    DocumentData :=
  let chunks := chunkContent textContent chunkSizeDefault
  ⟨fileName, textContent, chunks,
    ⟨mdBase, fileName, filePath, fileType, now, chunks.length, textContent.length,
      "local_file", true⟩⟩

/-- The outcome of the `fetch` to the Onyx backend inside `addDocumentToOnyx`:
thrown, or a response with a status and the parsed `document_id` / `file_id`. -/
inductive OnyxFetch where
  | thrown (msg : String)
  | response (status : Nat) (documentId fileId : String)

/-- The value `addDocumentToOnyx` returns. -/
structure OnyxRet where
  success : Bool
  documentId : String
  fileId : String
  chunks : Nat
  warning : Option String
  deriving DecidableEq

/-- `addDocumentToOnyx` from route.ts lines 202-248: a non-2xx status throws,
every throw is caught, and the catch returns `success: true` with fabricated
ids `doc_` / `file_` suffixed by `Math.random().toString(36).substr(2, 9)`
(modelled by the oracle strings `rnd1`, `rnd2`). -/
def addDocumentToOnyx (doc : DocumentData) (fetch : OnyxFetch) (rnd1 rnd2 : String) :
    OnyxRet :=
  match fetch with
  | .response st did fid =>
    if 200 ≤ st ∧ st ≤ 299 then
      ⟨true, did, fid, doc.chunks.length, none⟩
    else
      ⟨true, "doc_" ++ rnd1, "file_" ++ rnd2, doc.chunks.length,
        some "Onyx backend not available - using fallback"⟩
  | .thrown _ =>
    ⟨true, "doc_" ++ rnd1, "file_" ++ rnd2, doc.chunks.length,
      some "Onyx backend not available - using fallback"⟩

/-- The JSON body (plus HTTP status) the `POST` handler responds with. -/
structure PostRet where
  success : Bool
  status : Nat
  message : Option String
  error : Option String
  documentId : Option String
  fileId : Option String
  chunks : Option Nat
  metadata : Option ProcessedMetadata
  deriving DecidableEq

/-- The `POST` handler (route.ts lines 65-117) as a function of the request
body fields, the `read_file` call's fetch outcome, and the Onyx call's fetch
outcome.  A failed MCP read throws `"MCP server error: " + mcpResponse.error`,
which the catch turns into a 500 response
`{success: false, error: "Failed to ingest file: " + message}`.  Because
`addDocumentToOnyx` always reports `success: true`, its failure branch in the
handler (the `Onyx integration error` throw) is dead code, but it is modelled
faithfully. -/
def postHandler (fileName filePath fileType : String)
    (readFo : FetchOutcome String) (onyxFo : OnyxFetch) (rnd1 rnd2 now : String) :
    PostRet :=
  match callMCPServer readFo with
  | .fail e =>
    ⟨false, 500, none, some ("Failed to ingest file: " ++ ("MCP server error: " ++ e)),
      none, none, none, none⟩
  | .ok content md =>
    let doc := processDocumentContent fileName filePath fileType content md now
    let onyx := addDocumentToOnyx doc onyxFo rnd1 rnd2
    if onyx.success then
      ⟨true, 200, some ("Successfully ingested " ++ (fileName ++ " into Onyx")), none,
        some onyx.documentId, some onyx.fileId, some onyx.chunks, some doc.metadata⟩
    else
      ⟨false, 500, none,
        some ("Failed to ingest file: " ++ ("Onyx integration error: " ++ "Unknown error")),
        none, none, none, none⟩

/-- Modelled from the spec: the MCP server tool `read_file` (implemented in
`mcp_server.py`, which is not part of this repository snapshot — only its
documentation and its caller `route.ts` are).  Per the spec, the tool
"checks extension against the allowed-extensions whitelist before opening the
file; fails `UnsupportedExtension` otherwise".  `fsRead` stands for the
filesystem access, performed only after the whitelist check passes, so a
result is independent of `fsRead` exactly when no filesystem access happened. -/
def readFileTool (allowedExtensions : List String) (ext : String)
    (fsRead : Unit → Except String String) : Except String String :=
  if ext ∈ allowedExtensions then fsRead () else Except.error "UnsupportedExtension"

/-- Modelled from the spec: the MCP server surfaces a tool failure to its HTTP
client as a JSON-RPC error object inside a 200 response, which is what
`callMCPServer` inspects as `data.error`. -/
def mcpServeRead (allowedExtensions : List String) (ext : String)
    (fsRead : Unit → Except String String) : FetchOutcome String :=
  match readFileTool allowedExtensions ext fsRead with
  | .error e => .response 200 (some e) "" ""
  | .ok c => .response 200 none c ""

/-- `needle` occurs verbatim inside `hay`. -/
def containsStr (hay needle : String) : Prop :=
  ∃ a b, hay = a ++ needle ++ b

/-! ### Lemmas about the chunking loop -/

lemma strMk_append (a b : List Char) : String.mk a ++ String.mk b = String.mk (a ++ b) :=
  rfl

lemma strMk_length (a : List Char) : (String.mk a).length = a.length :=
  rfl

/-- `content.length` fuel steps are enough for the loop when `chunkSize > 0`. -/
lemma chunkLoop_fuel_suffices (content : String) (cs : Nat) (hcs : 0 < cs) :
    content.length - 0 ≤ content.length * cs := by
  have h := Nat.mul_le_mul_left content.length hcs
  rw [Nat.mul_one] at h
  omega

/-- Concatenating the `content` fields of the chunks emitted from position `i`
onward yields exactly the tail of the text from position `i`. -/
lemma chunkLoop_concat (content : String) (cs : Nat) (hcs : 0 < cs) :
    ∀ fuel i, content.length - i ≤ fuel * cs →
      concatChunks (chunkLoop content cs i fuel) = String.mk (content.data.drop i) := by
  intro fuel
  induction fuel with
  | zero =>
    intro i h
    have hlen : content.data.length ≤ i := by
      have : content.length = content.data.length := rfl
      omega
    simp [chunkLoop, concatChunks, List.drop_eq_nil_of_le hlen]
  | succ fuel ih =>
    intro i h
    by_cases hi : i < content.length
    · have hrec : content.length - (i + cs) ≤ fuel * cs := by
        rw [Nat.succ_mul] at h
        omega
      simp only [chunkLoop, if_pos hi, concatChunks, List.foldr_cons]
      have ihr := ih (i + cs) hrec
      simp only [concatChunks] at ihr
      rw [ihr, jsSlice, strMk_append]
      congr 1
      have hcsf : i + cs - i = cs := by omega
      rw [hcsf]
      exact List.drop_take_append_drop content.data i cs
    · have hlen : content.data.length ≤ i := by
        have : content.length = content.data.length := rfl
        omega
      simp [chunkLoop, if_neg hi, concatChunks, List.drop_eq_nil_of_le hlen]

/-- The ceiling-division recurrence stepping one chunk of size `cs` off a
remainder of `a > 0` characters. -/
lemma ceilDiv_step (a cs : Nat) (hcs : 0 < cs) (ha : 0 < a) :
    (a - cs + cs - 1) / cs + 1 = (a + cs - 1) / cs := by
  have h1 : a + cs - 1 = (a - 1) + cs := by omega
  rw [h1, Nat.add_div_right _ hcs]
  rcases le_or_lt cs a with h | h
  · have h2 : a - cs + cs - 1 = a - 1 := by omega
    rw [h2]
  · have h2 : a - cs + cs - 1 = cs - 1 := by omega
    rw [h2, Nat.div_eq_of_lt (by omega), Nat.div_eq_of_lt (by omega)]

/-- The loop started at position `i` emits exactly
`⌈(content.length - i) / cs⌉` chunks. -/
lemma chunkLoop_length (content : String) (cs : Nat) (hcs : 0 < cs) :
    ∀ fuel i, content.length - i ≤ fuel * cs →
      (chunkLoop content cs i fuel).length = (content.length - i + cs - 1) / cs := by
  intro fuel
  induction fuel with
  | zero =>
    intro i h
    have h0 : content.length - i = 0 := by omega
    rw [h0]
    simp [chunkLoop, Nat.div_eq_of_lt (show cs - 1 < cs by omega)]
  | succ fuel ih =>
    intro i h
    by_cases hi : i < content.length
    · have hrec : content.length - (i + cs) ≤ fuel * cs := by
        rw [Nat.succ_mul] at h
        omega
      simp only [chunkLoop, if_pos hi, List.length_cons]
      rw [ih (i + cs) hrec]
      have e : content.length - (i + cs) = content.length - i - cs := by omega
      rw [e]
      exact ceilDiv_step (content.length - i) cs hcs (by omega)
    · have h0 : content.length - i = 0 := by omega
      rw [h0]
      simp [chunkLoop, if_neg hi, Nat.div_eq_of_lt (show cs - 1 < cs by omega)]

/-- Every chunk the loop emits has content of at most `cs` characters. -/
lemma chunkLoop_content_le (content : String) (cs : Nat) :
    ∀ fuel i, ∀ c ∈ chunkLoop content cs i fuel, c.content.length ≤ cs := by
  intro fuel
  induction fuel with
  | zero =>
    intro i c hc
    simp [chunkLoop] at hc
  | succ fuel ih =>
    intro i c hc
    by_cases hi : i < content.length
    · simp only [chunkLoop, if_pos hi, List.mem_cons] at hc
      rcases hc with rfl | hc
      · simp only [jsSlice, strMk_length, List.length_take]
        have h2 : i + cs - i = cs := by omega
        rw [h2]
        exact Nat.min_le_left _ _
      · exact ih (i + cs) c hc
    · simp [chunkLoop, if_neg hi] at hc

/-- The indexes of the chunks the loop emits from position `q * cs` are
`q, q + 1, q + 2, ...` in emission order. -/
lemma chunkLoop_map_index (content : String) (cs : Nat) (hcs : 0 < cs) :
    ∀ fuel q, (chunkLoop content cs (q * cs) fuel).map (fun c => c.index) =
      List.range' q (chunkLoop content cs (q * cs) fuel).length := by
  intro fuel
  induction fuel with
  | zero =>
    intro q
    simp [chunkLoop]
  | succ fuel ih =>
    intro q
    by_cases hi : q * cs < content.length
    · have hq : q * cs / cs = q := Nat.mul_div_cancel q hcs
      have hstep : q * cs + cs = (q + 1) * cs := (Nat.succ_mul q cs).symm
      simp only [chunkLoop, if_pos hi, List.map_cons, List.length_cons, hq, hstep, ih (q + 1)]
      rw [List.range'_succ]
    · simp [chunkLoop, if_neg hi]

lemma strEq_of_data {a b : String} (h : a.data = b.data) : a = b := by
  cases a
  cases b
  exact congrArg String.mk h

lemma strData_append (a b : String) : (a ++ b).data = a.data ++ b.data :=
  rfl

lemma lookup_eq_none_of_not_mem {α β : Type} [BEq α] [LawfulBEq α]
    (l : List (α × β)) (k : α) (h : k ∉ l.map Prod.fst) : l.lookup k = none := by
  induction l with
  | nil => rfl
  | cons p t ih =>
    simp only [List.map_cons, List.mem_cons] at h
    push_neg at h
    have hne : (k == p.1) = false := beq_false_of_ne h.1
    simp [List.lookup, hne, ih h.2]

/-! ### Claim theorems -/

/-- Claim C2 (confirmed).  For every text and every chunkSize > 0,
concatenating the content fields of all chunks produced by chunkContent, in
index order, yields exactly the original text.  The code's chunks are disjoint
slices — consecutive chunks share zero characters, i.e. the configured overlap
of this chunker is 0 — so removing the shared overlap characters is the
identity and plain concatenation reconstructs the text. -/
theorem chunk_concat_reconstructs_text (text : String) (chunkSize : Nat)
    (h : 0 < chunkSize) :
    concatChunks (chunkContent text chunkSize) = text := by
  have hc := chunkLoop_concat text chunkSize h text.length 0
    (chunkLoop_fuel_suffices text chunkSize h)
  rw [chunkContent, hc, List.drop_zero]

/-- Witness for claim C2 at a concrete input. -/
theorem chunk_concat_reconstructs_text_witness :
    concatChunks (chunkContent "hello world, hello Onyx." 10) =
      "hello world, hello Onyx." :=
  chunk_concat_reconstructs_text "hello world, hello Onyx." 10 (by decide)

/-- Claim C6 (confirmed).  For every text and every chunkSize > 0, every chunk
produced by chunkContent has content of length at most chunkSize characters,
and the chunk indexes are 0-based and contiguous in emission order (the list
of indexes is exactly 0, 1, ..., count-1). -/
theorem chunk_bounds_and_indexes (text : String) (chunkSize : Nat)
    (h : 0 < chunkSize) :
    (∀ c ∈ chunkContent text chunkSize, c.content.length ≤ chunkSize) ∧
      (chunkContent text chunkSize).map (fun c => c.index) =
        List.range (chunkContent text chunkSize).length := by
  constructor
  · exact chunkLoop_content_le text chunkSize text.length 0
  · have hm := chunkLoop_map_index text chunkSize h text.length 0
    rw [Nat.zero_mul] at hm
    rw [chunkContent, hm, List.range_eq_range']

/-- Witness for claim C6 at a concrete input. -/
theorem chunk_bounds_and_indexes_witness :
    (∀ c ∈ chunkContent "abcde" 2, c.content.length ≤ 2) ∧
      (chunkContent "abcde" 2).map (fun c => c.index) =
        List.range (chunkContent "abcde" 2).length :=
  chunk_bounds_and_indexes "abcde" 2 (by decide)

/-- Claim C7 (confirmed).  For the empty text and every chunkSize > 0,
chunkContent returns the empty chunk list, not a list containing one empty
chunk: the loop condition 0 < 0 fails immediately. -/
theorem chunkContent_empty_text (chunkSize : Nat) (_h : 0 < chunkSize) :
    chunkContent "" chunkSize = [] :=
  rfl

/-- Witness for claim C7 at the default chunk size. -/
theorem chunkContent_empty_text_witness : chunkContent "" 1000 = [] :=
  chunkContent_empty_text 1000 (by decide)

/-- Claim C4 (code bug).  The repository documentation
(MCP_FILE_SYNC_GUIDE.md, section "Content Chunking" of the
POST /api/mcp/local-files pipeline) states that consecutive chunks share an
overlap of 200 characters, but chunkContent emits disjoint slices: at the
failing input chunkContent("abcdefgh", 4) the trailing two characters "cd" of
chunk 0 differ from the leading two characters "ef" of chunk 1 (and likewise
for every positive overlap width), so consecutive chunks share no characters
at all. -/
theorem chunkContent_chunks_share_no_overlap :
    chunkContent "abcdefgh" 4 =
        [⟨"chunk_0", "abcd", 0⟩, ⟨"chunk_4", "efgh", 1⟩] ∧
      jsSlice "abcd" 2 4 = "cd" ∧ jsSlice "efgh" 0 2 = "ef" ∧
      ("cd" : String) ≠ "ef" := by
  decide

/-- Claim C5 (code bug).  The repository documentation
(MCP_FILE_SYNC_GUIDE.md: "Smart Splitting: Respects sentence boundaries") and
the spec say the chunker prefers a sentence or whitespace boundary near
chunkSize over an exact cut, yet chunkContent always cuts at exactly chunkSize
characters: at the failing input chunkContent("aa bbbb", 4) there is a
whitespace boundary at position 2 (distance 2 from the cut point), but the
code cuts mid-word at position 4, producing "aa b" and "bbb". -/
theorem chunkContent_hard_cut_at_chunkSize :
    chunkContent "aa bbbb" 4 =
      [⟨"chunk_0", "aa b", 0⟩, ⟨"chunk_4", "bbb", 1⟩] := by
  decide

/-- Claim C10 (confirmed).  For every processed document, the attached
metadata is self-consistent with the produced chunks: chunkCount equals the
number of produced chunks, which for non-empty text equals
ceiling(text.length / 1000) (1000 being the chunkSize processDocumentContent
passes, namely the default), and originalSize equals the length of the
decoded text. -/
theorem processDocumentContent_metadata_consistent
    (fileName filePath fileType text mdBase now : String) :
    (processDocumentContent fileName filePath fileType text mdBase now).metadata.chunkCount =
        (processDocumentContent fileName filePath fileType text mdBase now).chunks.length ∧
      (processDocumentContent fileName filePath fileType text mdBase now).metadata.originalSize =
        text.length ∧
      (text ≠ "" →
        (processDocumentContent fileName filePath fileType text mdBase now).chunks.length =
          (text.length + chunkSizeDefault - 1) / chunkSizeDefault) := by
  refine ⟨rfl, rfl, fun _ => ?_⟩
  show (chunkContent text chunkSizeDefault).length = _
  have h1000 : 0 < chunkSizeDefault := by decide
  have hl := chunkLoop_length text chunkSizeDefault h1000 text.length 0
    (chunkLoop_fuel_suffices text chunkSizeDefault h1000)
  rw [chunkContent, hl, Nat.sub_zero]

/-- Witness for claim C10 at a concrete input. -/
theorem processDocumentContent_metadata_consistent_witness :
    (processDocumentContent "a.txt" "/docs/a.txt" "file" "hello" "" "t").chunks.length =
      ("hello".length + chunkSizeDefault - 1) / chunkSizeDefault :=
  (processDocumentContent_metadata_consistent "a.txt" "/docs/a.txt" "file" "hello" "" "t").2.2
    (by decide)

/-- Claim C1 counterexample.  The claim — a failed downstream call is reported
as a failure and fabricated results are never substituted under a success
report — is false at a concrete input: when the MCP listing call throws
(server unreachable), the GET handler responds success = true with the
hard-coded non-empty mock file list. -/
theorem get_fallback_reports_success_with_mock_files :
    (getHandler (FetchOutcome.thrown "ECONNREFUSED") "2024-01-01T00:00:00.000Z").success
        = true ∧
      (getHandler (FetchOutcome.thrown "ECONNREFUSED") "2024-01-01T00:00:00.000Z").files =
        mockLocalFiles "2024-01-01T00:00:00.000Z" ∧
      mockLocalFiles "2024-01-01T00:00:00.000Z" ≠ [] := by
  decide

/-- Claim C1 (corrected).  What the code actually does on downstream failure:
the GET listing handler returns success = true with the fixed mock file list
and a warning field; addDocumentToOnyx returns success = true with fabricated
ids ("doc_" / "file_" plus a random suffix) and a warning; only a failed MCP
read in the POST handler is reported to the caller as a failure (success =
false, HTTP 500, with the wrapped error message). -/
theorem downstream_failure_fallback_behavior :
    (∀ e now, getHandler (FetchOutcome.thrown e) now =
        ⟨true, mockLocalFiles now, some "Using fallback data - MCP server not available"⟩) ∧
      (∀ doc fetchMsg r1 r2, addDocumentToOnyx doc (OnyxFetch.thrown fetchMsg) r1 r2 =
        ⟨true, "doc_" ++ r1, "file_" ++ r2, doc.chunks.length,
          some "Onyx backend not available - using fallback"⟩) ∧
      (∀ fn fp ft e onyxFo r1 r2 now,
        postHandler fn fp ft (FetchOutcome.thrown e) onyxFo r1 r2 now =
          ⟨false, 500, none,
            some ("Failed to ingest file: " ++ ("MCP server error: " ++
              ("MCP server call failed: " ++ e))), none, none, none, none⟩) :=
  ⟨fun _ _ => rfl, fun _ _ _ _ => rfl, fun _ _ _ _ _ _ _ _ => rfl⟩

/-- Claim C3 (confirmed, against the spec-modelled read_file tool; the tool's
implementation mcp_server.py is not part of this source snapshot).  A
file-read/ingest request whose extension is outside the allowed-extensions
whitelist fails with UnsupportedExtension before any filesystem access — the
result is the same for every possible filesystem read — and the rejection is
surfaced to the caller by the POST handler as success = false, HTTP 500, with
the UnsupportedExtension reason embedded in the error payload, never silently
degraded. -/
theorem unsupported_extension_rejected_and_surfaced
    (allowedExtensions : List String) (ext : String)
    (fsRead : Unit → Except String String)
    (fn fp ft : String) (onyxFo : OnyxFetch) (r1 r2 now : String)
    (h : ext ∉ allowedExtensions) :
    readFileTool allowedExtensions ext fsRead = Except.error "UnsupportedExtension" ∧
      (postHandler fn fp ft (mcpServeRead allowedExtensions ext fsRead)
          onyxFo r1 r2 now).success = false ∧
      (postHandler fn fp ft (mcpServeRead allowedExtensions ext fsRead)
          onyxFo r1 r2 now).status = 500 ∧
      containsStr ((postHandler fn fp ft (mcpServeRead allowedExtensions ext fsRead)
          onyxFo r1 r2 now).error.getD "") "UnsupportedExtension" := by
  have hr : readFileTool allowedExtensions ext fsRead =
      Except.error "UnsupportedExtension" := by
    rw [readFileTool, if_neg h]
  have hserve : mcpServeRead allowedExtensions ext fsRead =
      FetchOutcome.response 200 (some "UnsupportedExtension") "" "" := by
    rw [mcpServeRead, hr]
  have hpost : postHandler fn fp ft (mcpServeRead allowedExtensions ext fsRead)
        onyxFo r1 r2 now =
      ⟨false, 500, none,
        some ("Failed to ingest file: " ++ ("MCP server error: " ++
          ("MCP server call failed: " ++ ("MCP server error: " ++ "UnsupportedExtension")))),
        none, none, none, none⟩ := by
    rw [hserve]
    exact rfl
  refine ⟨hr, ?_, ?_, ?_⟩
  · rw [hpost]
  · rw [hpost]
  · rw [hpost]
    exact ⟨"Failed to ingest file: MCP server error: MCP server call failed: MCP server error: ",
      "", by decide⟩

/-- Witness for claim C3 at a concrete input. -/
theorem unsupported_extension_rejected_and_surfaced_witness :
    readFileTool [".txt", ".md", ".pdf", ".docx", ".html"] ".exe"
        (fun _ => Except.ok "MZbinary") = Except.error "UnsupportedExtension" ∧
      (postHandler "tool.exe" "/u/tool.exe" "file"
          (mcpServeRead [".txt", ".md", ".pdf", ".docx", ".html"] ".exe"
            (fun _ => Except.ok "MZbinary"))
          (OnyxFetch.thrown "down") "r1" "r2" "t").success = false ∧
      (postHandler "tool.exe" "/u/tool.exe" "file"
          (mcpServeRead [".txt", ".md", ".pdf", ".docx", ".html"] ".exe"
            (fun _ => Except.ok "MZbinary"))
          (OnyxFetch.thrown "down") "r1" "r2" "t").status = 500 ∧
      containsStr ((postHandler "tool.exe" "/u/tool.exe" "file"
          (mcpServeRead [".txt", ".md", ".pdf", ".docx", ".html"] ".exe"
            (fun _ => Except.ok "MZbinary"))
          (OnyxFetch.thrown "down") "r1" "r2" "t").error.getD "")
        "UnsupportedExtension" :=
  unsupported_extension_rejected_and_surfaced
    [".txt", ".md", ".pdf", ".docx", ".html"] ".exe" (fun _ => Except.ok "MZbinary")
    "tool.exe" "/u/tool.exe" "file" (OnyxFetch.thrown "down") "r1" "r2" "t" (by decide)

/-- Claim C8 counterexample.  The claim — error payloads contain only a
generic reason and never the raw system or downstream error text — is false at
a concrete input: when the fetch inside callMCPServer throws the raw system
message "EACCES: permission denied, open /etc/shadow", the POST handler's
error payload embeds that raw text verbatim. -/
theorem post_error_payload_contains_raw_text :
    (postHandler "f.txt" "/f.txt" "file"
        (FetchOutcome.thrown "EACCES: permission denied, open /etc/shadow")
        (OnyxFetch.thrown "") "r1" "r2" "t").error =
      some ("Failed to ingest file: MCP server error: MCP server call failed: " ++
        "EACCES: permission denied, open /etc/shadow") ∧
    containsStr ("Failed to ingest file: MCP server error: MCP server call failed: " ++
        "EACCES: permission denied, open /etc/shadow")
      "EACCES: permission denied, open /etc/shadow" := by
  constructor
  · decide
  · exact ⟨"Failed to ingest file: MCP server error: MCP server call failed: ", "", by decide⟩

/-- Claim C8 (corrected).  The POST handler's error payload is the underlying
raw error message wrapped in fixed generic prefixes ("Failed to ingest file:
", "MCP server error: ", "MCP server call failed: "): the raw system or
downstream text is embedded verbatim in the payload, not omitted. -/
theorem post_error_payload_wraps_raw_message (raw fn fp ft : String)
    (onyxFo : OnyxFetch) (r1 r2 now : String) :
    (postHandler fn fp ft (FetchOutcome.thrown raw) onyxFo r1 r2 now).error =
        some ("Failed to ingest file: " ++ ("MCP server error: " ++
          ("MCP server call failed: " ++ raw))) ∧
      containsStr ("Failed to ingest file: " ++ ("MCP server error: " ++
          ("MCP server call failed: " ++ raw))) raw := by
  refine ⟨rfl,
    "Failed to ingest file: MCP server error: MCP server call failed: ", "", ?_⟩
  apply strEq_of_data
  simp only [strData_append, List.append_nil]
  rw [← List.append_assoc, ← List.append_assoc]
  congr 1

/-- Claim C9 counterexample.  The claim fails at two concrete inputs.
First, a file name with no extension does not map to application/octet-stream:
"pdf" contains no dot, hence has no extension, yet getMimeType returns
"application/pdf", because the code takes the last dot-separated segment of
the name, which for a dotless name is the whole name.  Second, the lookup is
not string-total: at "x.constructor" the bracket access resolves through the
prototype chain to the inherited truthy Object constructor, so the code
returns that member — not a string and not application/octet-stream. -/
theorem getMimeType_dotless_name_not_octet :
    (('.' ∉ "pdf".data) ∧ getMimeType "pdf" = JsValue.str "application/pdf" ∧
      JsValue.str "application/pdf" ≠ JsValue.str "application/octet-stream") ∧
    (getMimeType "x.constructor" = JsValue.protoMember "constructor" ∧
      ∀ s, getMimeType "x.constructor" ≠ JsValue.str s) := by
  have h2 : getMimeType "x.constructor" = JsValue.protoMember "constructor" := by decide
  refine ⟨by decide, h2, fun s hc => ?_⟩
  rw [h2] at hc
  exact JsValue.noConfusion hc

/-- Claim C9 (corrected).  The lookup treats the final dot-separated segment —
the whole name when the name contains no dot — as the extension, compared
case-insensitively.  When that segment is neither one of the seven recognized
extensions nor one of the property names inherited from Object.prototype, the
result is application/octet-stream; when it is an inherited property name,
the bracket access resolves through the prototype chain to that truthy member
and the code returns it — a value that is not a string at all.  Because the
segment is lowercased before the lookup, the reachable inherited names are
those already lowercase, namely "constructor" and "__proto__".  (A dotless
name matching a recognized extension, such as "pdf", returns that extension's
type.) -/
theorem getMimeType_unrecognized_segment (fileName : String) :
    (jsToLower (jsLastSeg fileName) ∉ mimeTypes.map Prod.fst →
      jsToLower (jsLastSeg fileName) ∉ objectProtoMembers →
      getMimeType fileName = JsValue.str "application/octet-stream") ∧
    (jsToLower (jsLastSeg fileName) ∉ mimeTypes.map Prod.fst →
      jsToLower (jsLastSeg fileName) ∈ objectProtoMembers →
      getMimeType fileName = JsValue.protoMember (jsToLower (jsLastSeg fileName)) ∧
        ∀ s, getMimeType fileName ≠ JsValue.str s) := by
  constructor
  · intro h hp
    rw [getMimeType, jsIndex, lookup_eq_none_of_not_mem mimeTypes _ h, if_neg hp]
  · intro h hp
    have hm : getMimeType fileName =
        JsValue.protoMember (jsToLower (jsLastSeg fileName)) := by
      rw [getMimeType, jsIndex, lookup_eq_none_of_not_mem mimeTypes _ h, if_pos hp]
    refine ⟨hm, fun s hc => ?_⟩
    rw [hm] at hc
    exact JsValue.noConfusion hc

/-- Witness for claim C9, exercising both hypotheses at concrete inputs:
an unrecognized ordinary segment and an inherited prototype member. -/
theorem getMimeType_unrecognized_segment_witness :
    getMimeType "README" = JsValue.str "application/octet-stream" ∧
      getMimeType "x.__proto__" = JsValue.protoMember "__proto__" :=
  ⟨(getMimeType_unrecognized_segment "README").1 (by decide) (by decide),
    ((getMimeType_unrecognized_segment "x.__proto__").2 (by decide) (by decide)).1⟩

end RagWithOnyxMCP
